import Mathlib

/-!
# youve-got-mail: the mail-delivered notification server

A shallow embedding of `server/main.go` and the properties of its
configuration loader, message composer and SMTP delivery handler.

Modelling conventions.

* A Go `string` is a list of Unicode code points (`Str`); the environment
  values and literals of the program are taken to be valid UTF-8.
* The process environment is a list of `KEY=VALUE` pairs; `os.Getenv` reads
  the first pair with the key and gives the empty string when there is none.
* The formatted wall-clock time (`time.Now().In(loc).Format(...)`) is an
  input `currentTime` of the handler.
* The SMTP peer is a simulated session: a function that, given the
  operations issued so far and the next operation, answers with an error
  value or with success. The handler threads the list of issued operations
  through the run, so a run yields that list together with the final state
  of the HTTP response writer. The list holds the calls the handler itself
  makes on package `net/smtp`, its client and the data writer; the commands
  the library puts on the wire inside one call are not part of it.
-/

namespace YouveGotMail

/-! ## Strings (package `strings`, `unicode`) -/

/-- Go strings, as lists of code points. -/
abbrev Str := List Char

/-- Go `unicode.IsSpace`: the Latin-1 spaces `\t \n \v \f \r`, space, U+0085,
U+00A0, and the other code points of the Unicode White_Space property. -/
def isSpace (c : Char) : Bool :=
  let r := c.toNat
  (0x09 ≤ r && r ≤ 0x0D) || r == 0x20 || r == 0x85 || r == 0xA0 ||
  r == 0x1680 || (0x2000 ≤ r && r ≤ 0x200A) || r == 0x2028 || r == 0x2029 ||
  r == 0x202F || r == 0x205F || r == 0x3000

/-- Go `strings.TrimSpace`: all leading and trailing white space removed. -/
def TrimSpace (s : Str) : Str :=
  (s.dropWhile isSpace).rdropWhile isSpace

/-- Go `strings.Split(s, sep)` for a one-character separator: the pieces of
`s` between the occurrences of `sep`; a string without `sep` (the empty
string too) gives the one-element list `[s]`. -/
def Split : Str → Char → List Str
  | [], _ => [[]]
  | c :: cs, sep =>
    if c = sep then [] :: Split cs sep
    else
      match Split cs sep with
      | [] => [[c]]
      | p :: ps => (c :: p) :: ps

/-- Go `strings.Join(elems, sep)`. -/
def Join (elems : List Str) (sep : Str) : Str :=
  sep.intercalate elems

/-- Go `strings.TrimSuffix(s, suffix)`: `s` without the trailing `suffix`
when it ends with it, `s` unchanged otherwise. -/
def TrimSuffix (s suffix : Str) : Str :=
  if suffix.isSuffixOf s then s.take (s.length - suffix.length) else s

/-! ## Configuration -/

/-- Email configuration struct. -/
structure Config where
  Port : Str
  EmailFrom : Str
  EmailPassword : Str
  EmailTo : List Str
  SmtpHost : Str
  SmtpPort : Str
  deriving DecidableEq, Repr

/-- The Go zero value `Config{}`: empty strings and a nil slice. -/
def Config.zero : Config :=
  { Port := [], EmailFrom := [], EmailPassword := [], EmailTo := [],
    SmtpHost := [], SmtpPort := [] }

/-- The process environment: `KEY=VALUE` pairs. -/
abbrev Env := List (Str × Str)

/-- Go `os.Getenv`: the value of the variable, empty when it is not set. -/
def Getenv (env : Env) (key : Str) : Str :=
  (env.lookup key).getD []

/-- Required environment variables. -/
def requiredEnvVars : List Str :=
  ["EMAIL_FROM".toList, "EMAIL_PASSWORD".toList, "EMAIL_TO".toList,
   "SMTP_HOST".toList, "SMTP_PORT".toList]

/-- Helper function to get environment variable with default. -/
def getEnvWithDefault (env : Env) (key defaultValue : Str) : Str :=
  let value := Getenv env key
  if value = [] then defaultValue else value

/-- The first loop of `loadConfig`: walk the required variables in order
and give the error of the first one whose value is empty. -/
def checkRequired (env : Env) : List Str → Option Str
  | [] => none
  | envVar :: rest =>
    if Getenv env envVar = [] then
      some ("required environment variable ".toList ++ envVar ++ " is not set".toList)
    else checkRequired env rest

/-- Load configuration from environment variables. The Go result
`(Config, error)` is the pair of the configuration and the error message,
`none` for a nil error. -/
def loadConfig (env : Env) : Config × Option Str :=
  match checkRequired env requiredEnvVars with
  | some err => (Config.zero, some err)
  | none =>
    let emailToEnv := Getenv env "EMAIL_TO".toList
    let emailToList := Split emailToEnv ','
    let emailToList := emailToList.map TrimSpace
    ({ Port := getEnvWithDefault env "PORT".toList "3333".toList,
       EmailFrom := Getenv env "EMAIL_FROM".toList,
       EmailPassword := Getenv env "EMAIL_PASSWORD".toList,
       EmailTo := emailToList,
       SmtpHost := Getenv env "SMTP_HOST".toList,
       SmtpPort := Getenv env "SMTP_PORT".toList }, none)

/-! ## Message composition -/

/-- The subject line: `fmt.Sprintf("Mail Delivered - %s", currentTime)`. -/
def subject (currentTime : Str) : Str :=
  "Mail Delivered - ".toList ++ currentTime

/-- The fixed body text of the notification. -/
def body : Str :=
  "You've got mail in your mailbox!\n\nThis notification was sent from your home mailbox system.\n\nBest regards,\nYour Mailbox".toList

/-- Extract sender email for headers: the second piece of `from` split at
`<`, without a trailing `>`, when there is more than one piece, and `from`
itself otherwise. -/
def senderEmail (from_ : Str) : Str :=
  let fromParts := Split from_ '<'
  if fromParts.length > 1 then TrimSuffix (fromParts.getD 1 []) ">".toList
  else from_

/-- Basic email headers followed by the body. -/
def message (config : Config) (currentTime : Str) : Str :=
  "From: ".toList ++ config.EmailFrom ++ "\r\n".toList ++
  "To: ".toList ++ Join config.EmailTo ",".toList ++ "\r\n".toList ++
  "Subject: ".toList ++ subject currentTime ++ "\r\n".toList ++
  "MIME-Version: 1.0\r\n".toList ++
  "Content-Type: text/plain; charset=UTF-8\r\n".toList ++
  "\r\n".toList ++
  body ++ "\r\n".toList

/-! ## HTTP response writer -/

/-- The JSON values the handler encodes. -/
inductive JSONValue where
  | bool (b : Bool)
  | string (s : Str)
  deriving DecidableEq, Repr

/-- A JSON object, as the key/value pairs of the Go map literal. -/
abbrev JSONObject := List (Str × JSONValue)

/-- State of an `http.ResponseWriter`: the header map, the status code once
the header has been written, and the JSON documents written to the body. -/
structure ResponseWriter where
  header : List (Str × Str)
  statusCode : Option Nat
  written : List JSONObject
  deriving DecidableEq, Repr

/-- The writer a handler receives: nothing set, nothing written. -/
def ResponseWriter.fresh : ResponseWriter :=
  { header := [], statusCode := none, written := [] }

/-- Go `w.Header().Set(key, value)`. -/
def ResponseWriter.headerSet (w : ResponseWriter) (key value : Str) : ResponseWriter :=
  { w with header := (key, value) :: w.header.filter (fun kv => kv.1 ≠ key) }

/-- Go `w.WriteHeader(code)`: the first call fixes the status code. -/
def ResponseWriter.WriteHeader (w : ResponseWriter) (code : Nat) : ResponseWriter :=
  match w.statusCode with
  | none => { w with statusCode := some code }
  | some _ => w

/-- Go `json.NewEncoder(w).Encode(v)`: the document is written to the body;
a write before any `WriteHeader` sends the header with status 200. -/
def ResponseWriter.Encode (w : ResponseWriter) (v : JSONObject) : ResponseWriter :=
  let w := w.WriteHeader 200
  { w with written := w.written ++ [v] }

/-- Helper function to return a JSON success response. -/
def returnJSONSuccess (w : ResponseWriter) : ResponseWriter :=
  let response : JSONObject := [("success".toList, JSONValue.bool true)]
  let w := w.headerSet "Content-Type".toList "application/json".toList
  w.Encode response

/-- Helper function to return a JSON error response. -/
def returnJSONError (w : ResponseWriter) (errMsg : Str) : ResponseWriter :=
  let response : JSONObject :=
    [("success".toList, JSONValue.bool false), ("error".toList, JSONValue.string errMsg)]
  let w := w.headerSet "Content-Type".toList "application/json".toList
  let w := w.WriteHeader 500
  w.Encode response

/-! ## SMTP session -/

/-- The operations the handler issues on package `net/smtp`, its client and
the data writer, with their arguments: one constructor per call in the
handler's source. -/
inductive SmtpOp where
  | Dial (addr : Str)
  | StartTLS (insecureSkipVerify : Bool) (serverName : Str)
  | Auth (identity username password host : Str)
  | Mail (from_ : Str)
  | Rcpt (to_ : Str)
  | Data
  | Write (p : Str)
  | WriterClose
  | Quit
  | Close
  deriving DecidableEq, Repr

/-- A simulated SMTP session: given the operations issued so far and the
next operation, the error it returns (`none` for a nil error). -/
abbrev Session := List SmtpOp → SmtpOp → Option Str

/-- Issue one operation: it is recorded and the session answers. -/
def call (smtp : Session) (tr : List SmtpOp) (op : SmtpOp) : List SmtpOp × Option Str :=
  (tr ++ [op], smtp tr op)

/-- Set recipients: the loop `for _, recipient := range to`, which stops at
the first recipient the session rejects. -/
def rcptLoop (smtp : Session) : List SmtpOp → List Str → List SmtpOp × Option Str
  | tr, [] => (tr, none)
  | tr, recipient :: rest =>
    match call smtp tr (SmtpOp.Rcpt recipient) with
    | (tr, some err) => (tr, some err)
    | (tr, none) => rcptLoop smtp tr rest

/-- The part of the handler that runs between `defer client.Close()` and
the return: STARTTLS, authentication, envelope, data, quit. -/
def session (config : Config) (currentTime : Str) (smtp : Session)
    (tr : List SmtpOp) (w : ResponseWriter) : List SmtpOp × ResponseWriter :=
  let from_ := config.EmailFrom
  let password := config.EmailPassword
  let to_ := config.EmailTo
  let smtpHost := config.SmtpHost
  -- Start TLS with our custom config
  match call smtp tr (SmtpOp.StartTLS true smtpHost) with
  | (tr, some _) => (tr, returnJSONError w "Failed to start TLS".toList)
  | (tr, none) =>
  -- Authenticate
  match call smtp tr (SmtpOp.Auth [] (senderEmail from_) password smtpHost) with
  | (tr, some _) => (tr, returnJSONError w "Failed to authenticate".toList)
  | (tr, none) =>
  -- Set sender
  match call smtp tr (SmtpOp.Mail (senderEmail from_)) with
  | (tr, some _) => (tr, returnJSONError w "Failed to set sender".toList)
  | (tr, none) =>
  -- Set recipients
  match rcptLoop smtp tr to_ with
  | (tr, some _) => (tr, returnJSONError w "Failed to set recipient".toList)
  | (tr, none) =>
  -- Send the message
  match call smtp tr SmtpOp.Data with
  | (tr, some _) => (tr, returnJSONError w "Failed to get data writer".toList)
  | (tr, none) =>
  match call smtp tr (SmtpOp.Write (message config currentTime)) with
  | (tr, some _) => (tr, returnJSONError w "Failed to write message".toList)
  | (tr, none) =>
  match call smtp tr SmtpOp.WriterClose with
  | (tr, some _) => (tr, returnJSONError w "Failed to close data writer".toList)
  | (tr, none) =>
  -- Quit the connection
  let (tr, _) := call smtp tr SmtpOp.Quit
  -- Return success JSON response
  (tr, returnJSONSuccess w)

/-- The handler of `/mail-delivered`, run against a simulated session: the
operations issued, in order, and the response writer at return. -/
def mailDelivered (config : Config) (currentTime : Str) (smtp : Session)
    (w : ResponseWriter) : List SmtpOp × ResponseWriter :=
  let smtpHost := config.SmtpHost
  let smtpPort := config.SmtpPort
  -- Connect to the server
  match call smtp [] (SmtpOp.Dial (smtpHost ++ ":".toList ++ smtpPort)) with
  | (tr, some _) => (tr, returnJSONError w "Failed to connect to mail server".toList)
  | (tr, none) =>
    -- defer client.Close(): runs when the handler returns; its result is dropped
    let (tr, w) := session config currentTime smtp tr w
    let (tr, _) := call smtp tr SmtpOp.Close
    (tr, w)

/-! ## Specification vocabulary and sample inputs -/

/-- A variable is missing from the environment: unset, or set to the empty string. -/
def unsetOrEmpty (env : Env) (X : Str) : Prop :=
  env.lookup X = none ∨ env.lookup X = some []

instance (env : Env) (X : Str) : Decidable (unsetOrEmpty env X) :=
  inferInstanceAs (Decidable (_ ∨ _))

/-- The message of the error `loadConfig` returns for variable `X`. -/
def notSetError (X : Str) : Str :=
  "required environment variable ".toList ++ X ++ " is not set".toList

/-- `t` is `e` with all leading and trailing white space removed. -/
def Trimmed (e t : Str) : Prop :=
  ∃ l r, e = l ++ t ++ r ∧ (∀ c ∈ l, isSpace c = true) ∧ (∀ c ∈ r, isSpace c = true) ∧
    (∀ c, t.head? = some c → isSpace c = false) ∧
    (∀ c, t.getLast? = some c → isSpace c = false)

/-- An environment with the five required variables set; the recipient list
has white space around its entries. -/
def envSample : Env :=
  [("EMAIL_FROM".toList, "Jane Doe <jane@example.com>".toList),
   ("EMAIL_PASSWORD".toList, "secret".toList),
   ("EMAIL_TO".toList, " a@example.com ,b@example.com\t, a@example.com".toList),
   ("SMTP_HOST".toList, "smtp.example.com".toList),
   ("SMTP_PORT".toList, "587".toList)]

/-- The entries of the recipient list of `envSample`. -/
def entriesSample : List Str :=
  [" a@example.com ".toList, "b@example.com\t".toList, " a@example.com".toList]

/-- An environment without EMAIL_PASSWORD and with an empty SMTP_PORT. -/
def envMissing : Env :=
  [("EMAIL_FROM".toList, "Jane Doe <jane@example.com>".toList),
   ("EMAIL_TO".toList, "a@example.com".toList),
   ("SMTP_HOST".toList, "smtp.example.com".toList),
   ("SMTP_PORT".toList, [])]

/-- The stages of a delivery, in the order they are attempted. -/
inductive Stage where
  | connect | starttls | auth | mailFrom | rcptTo | dataOpen | dataWrite | dataClose
  deriving DecidableEq, Repr

/-- The stage an operation belongs to; `Quit` and `Close` are no stage. -/
def stageOf : SmtpOp → Option Stage
  | SmtpOp.Dial _ => some Stage.connect
  | SmtpOp.StartTLS _ _ => some Stage.starttls
  | SmtpOp.Auth _ _ _ _ => some Stage.auth
  | SmtpOp.Mail _ => some Stage.mailFrom
  | SmtpOp.Rcpt _ => some Stage.rcptTo
  | SmtpOp.Data => some Stage.dataOpen
  | SmtpOp.Write _ => some Stage.dataWrite
  | SmtpOp.WriterClose => some Stage.dataClose
  | SmtpOp.Quit => none
  | SmtpOp.Close => none

/-- The caller-visible message of each stage, as the specification lists them. -/
def stageMessage : Stage → Str
  | Stage.connect => "Failed to connect to mail server".toList
  | Stage.starttls => "Failed to start TLS".toList
  | Stage.auth => "Failed to authenticate".toList
  | Stage.mailFrom => "Failed to set sender".toList
  | Stage.rcptTo => "Failed to set recipient".toList
  | Stage.dataOpen => "Failed to get data writer".toList
  | Stage.dataWrite => "Failed to write message".toList
  | Stage.dataClose => "Failed to close data writer".toList

/-- The message for a failing operation: that of its stage. -/
def failureMessage (op : SmtpOp) : Str :=
  match stageOf op with
  | some st => stageMessage st
  | none => []

/-- The steps after the connection is open, in order: starttls, auth,
mail-from, rcpt-to for each recipient, data-open, data-write, data-close. -/
def sessionSteps (config : Config) (currentTime : Str) : List SmtpOp :=
  [SmtpOp.StartTLS true config.SmtpHost,
   SmtpOp.Auth [] (senderEmail config.EmailFrom) config.EmailPassword config.SmtpHost,
   SmtpOp.Mail (senderEmail config.EmailFrom)] ++
  config.EmailTo.map SmtpOp.Rcpt ++
  [SmtpOp.Data, SmtpOp.Write (message config currentTime), SmtpOp.WriterClose]

/-- The steps of a delivery in the order of the specification: connect,
then the session steps. -/
def deliverySteps (config : Config) (currentTime : Str) : List SmtpOp :=
  SmtpOp.Dial (config.SmtpHost ++ ":".toList ++ config.SmtpPort) :: sessionSteps config currentTime

/-- Reference run of a list of steps against a session, after the trace
`tr`: the steps are issued in order and the first failure aborts. The result
is the trace and the failing step, `none` when every step succeeded. -/
def runSteps (smtp : Session) : List SmtpOp → List SmtpOp → List SmtpOp × Option SmtpOp
  | tr, [] => (tr, none)
  | tr, op :: rest =>
    match smtp tr op with
    | some _ => (tr ++ [op], some op)
    | none => runSteps smtp (tr ++ [op]) rest

/-- In the session, issued the first `k` of `steps` in order, each succeeds. -/
def SucceedsBefore (smtp : Session) (steps : List SmtpOp) (k : Nat) : Prop :=
  ∀ j op, j < k → steps[j]? = some op → smtp (steps.take j) op = none

/-- Step `k` of `steps` is the first to fail: it is the operation `op`, the
steps before it succeed and the session answers it with the error `e`. -/
def FailsFirstAt (smtp : Session) (steps : List SmtpOp) (k : Nat) (op : SmtpOp) (e : Str) :
    Prop :=
  SucceedsBefore smtp steps k ∧ steps[k]? = some op ∧ smtp (steps.take k) op = some e

/-- Every step of `steps` succeeds in the session. -/
def AllSucceed (smtp : Session) (steps : List SmtpOp) : Prop :=
  SucceedsBefore smtp steps steps.length

/-- The handler's response for stage message `m`: status 500, content type
JSON and the object with `success` false and `error` `m`. -/
def errorResponse (m : Str) : ResponseWriter :=
  { header := [("Content-Type".toList, "application/json".toList)],
    statusCode := some 500,
    written := [[("success".toList, JSONValue.bool false), ("error".toList, JSONValue.string m)]] }

/-- The handler's response on success: status 200, content type JSON and the
object with `success` true. -/
def successResponse : ResponseWriter :=
  { header := [("Content-Type".toList, "application/json".toList)],
    statusCode := some 200,
    written := [[("success".toList, JSONValue.bool true)]] }

/-- A configuration with a display-name sender and two recipients. -/
def configSample : Config :=
  { Port := "3333".toList,
    EmailFrom := "Jane Doe <jane@example.com>".toList,
    EmailPassword := "secret".toList,
    EmailTo := ["a@example.com".toList, "b@example.com".toList],
    SmtpHost := "smtp.example.com".toList,
    SmtpPort := "587".toList }

/-- A formatted timestamp. -/
def timeSample : Str := "Jan 2, 2006 at 3:04 PM PST".toList

/-- The session in which every operation succeeds. -/
def sessionOK : Session := fun _ _ => none

/-- The session in which the operation issued after `n` others fails with
the error `e`, and every other operation succeeds. -/
def failAt (n : Nat) (e : Str) : Session :=
  fun tr _ => if tr.length = n then some e else none

/-- The session in which only `Quit` fails. -/
def quitFails : Session :=
  fun _ op => if op = SmtpOp.Quit then some "EOF".toList else none

/-- Every line feed of `s` is immediately preceded by a carriage return. -/
def LFAfterCR (s : Str) : Prop :=
  ∀ i, s[i]? = some '\n' → ∃ j, i = j + 1 ∧ s[j]? = some '\r'

/-- The five header lines and the blank separator line, each with its CRLF. -/
def headerBlock (config : Config) (currentTime : Str) : Str :=
  ("From: ".toList ++ config.EmailFrom) ++ "\r\n".toList ++
  ("To: ".toList ++ Join config.EmailTo ",".toList) ++ "\r\n".toList ++
  ("Subject: Mail Delivered - ".toList ++ currentTime) ++ "\r\n".toList ++
  "MIME-Version: 1.0".toList ++ "\r\n".toList ++
  "Content-Type: text/plain; charset=UTF-8".toList ++ "\r\n".toList ++
  [] ++ "\r\n".toList

/-! # Theorems -/

set_option maxRecDepth 8192

theorem Getenv_eq_nil_iff (env : Env) (X : Str) :
    Getenv env X = [] ↔ unsetOrEmpty env X := by
  unfold Getenv unsetOrEmpty
  cases h : env.lookup X <;> simp

theorem checkRequired_eq_none_iff (env : Env) (vars : List Str) :
    checkRequired env vars = none ↔ ∀ X ∈ vars, Getenv env X ≠ [] := by
  induction vars with
  | nil => simp [checkRequired]
  | cons v vs ih =>
    by_cases h : Getenv env v = []
    · simp [checkRequired, h]
    · simp [checkRequired, h, ih]

theorem checkRequired_eq_some (env : Env) (vars : List Str) (err : Str)
    (h : checkRequired env vars = some err) :
    ∃ pre X post, vars = pre ++ X :: post ∧ (∀ Y ∈ pre, Getenv env Y ≠ []) ∧
      Getenv env X = [] ∧ err = notSetError X := by
  induction vars with
  | nil => simp [checkRequired] at h
  | cons v vs ih =>
    by_cases hv : Getenv env v = []
    · refine ⟨[], v, vs, rfl, by simp, hv, ?_⟩
      simp [checkRequired, hv] at h
      simp [notSetError, ← h]
    · simp only [checkRequired, hv, if_false] at h
      obtain ⟨pre, X, post, h1, h2, h3, h4⟩ := ih h
      refine ⟨v :: pre, X, post, by simp [h1], ?_, h3, h4⟩
      intro Y hY
      rcases List.mem_cons.1 hY with rfl | hY
      · exact hv
      · exact h2 Y hY

theorem Split_ne_nil (s : Str) (sep : Char) : Split s sep ≠ [] := by
  induction s with
  | nil => simp [Split]
  | cons c cs ih =>
    unfold Split
    split
    · simp
    · split <;> simp

theorem Split_of_not_mem (e : Str) (sep : Char) (h : sep ∉ e) : Split e sep = [e] := by
  induction e with
  | nil => simp [Split]
  | cons c cs ih =>
    have hc : c ≠ sep := fun hh => h (by simp [hh])
    have hcs : sep ∉ cs := fun hh => h (by simp [hh])
    simp [Split, hc, ih hcs]

theorem Split_append_sep (e rest : Str) (sep : Char) (h : sep ∉ e) :
    Split (e ++ sep :: rest) sep = e :: Split rest sep := by
  induction e with
  | nil => simp [Split]
  | cons c cs ih =>
    have hc : c ≠ sep := fun hh => h (by simp [hh])
    have hcs : sep ∉ cs := fun hh => h (by simp [hh])
    simp [Split, hc, ih hcs]

theorem Split_Join (es : List Str) (sep : Char) (hne : es ≠ [])
    (h : ∀ e ∈ es, sep ∉ e) : Split (Join es [sep]) sep = es := by
  induction es with
  | nil => exact absurd rfl hne
  | cons e es ih =>
    cases es with
    | nil => simpa [Join, List.intercalate] using Split_of_not_mem e sep (h e (by simp))
    | cons e2 es =>
      have h2 : ∀ x ∈ e2 :: es, sep ∉ x := fun x hx => h x (List.mem_cons_of_mem _ hx)
      have ih2 := ih (by simp) h2
      have hj : Join (e :: e2 :: es) [sep] = e ++ sep :: Join (e2 :: es) [sep] := by
        simp [Join, List.intercalate, List.intersperse]
      rw [hj, Split_append_sep e _ sep (h e (by simp)), ih2]

theorem rdropWhile_append_rtakeWhile (p : Char → Bool) (l : Str) :
    l.rdropWhile p ++ l.rtakeWhile p = l := by
  unfold List.rdropWhile List.rtakeWhile
  rw [← List.reverse_append, List.takeWhile_append_dropWhile, List.reverse_reverse]

theorem TrimSpace_Trimmed (e : Str) : Trimmed e (TrimSpace e) := by
  refine ⟨e.takeWhile isSpace, (e.dropWhile isSpace).rtakeWhile isSpace, ?_, ?_, ?_, ?_, ?_⟩
  · unfold TrimSpace
    rw [List.append_assoc, rdropWhile_append_rtakeWhile, List.takeWhile_append_dropWhile]
  · intro c hc
    exact List.mem_takeWhile_imp hc
  · intro c hc
    exact List.mem_rtakeWhile_imp hc
  · intro c hc
    unfold TrimSpace at hc
    have hpre : (e.dropWhile isSpace).rdropWhile isSpace <+: e.dropWhile isSpace :=
      List.rdropWhile_prefix _ _
    obtain ⟨t, ht⟩ := hpre
    cases hr : (e.dropWhile isSpace).rdropWhile isSpace with
    | nil => simp [hr] at hc
    | cons a as =>
      rw [hr] at hc ht
      simp at hc
      subst hc
      have hh : (e.dropWhile isSpace).head? = some a := by rw [← ht]; simp
      have := List.head?_dropWhile_not isSpace e
      rw [hh] at this
      simpa using this
  · intro c hc
    unfold TrimSpace at hc
    have hne : (e.dropWhile isSpace).rdropWhile isSpace ≠ [] := by
      intro h0; simp [h0] at hc
    have := List.rdropWhile_last_not isSpace (e.dropWhile isSpace) hne
    rw [List.getLast?_eq_getLast _ hne] at hc
    simp at hc
    rw [hc] at this
    simpa using this

/-- C3. `loadConfig` fails exactly when one of the five required variables
(EMAIL_FROM, EMAIL_PASSWORD, EMAIL_TO, SMTP_HOST, SMTP_PORT, checked in this
order) is unset or empty; when it fails the result is the zero `Config`
together with the error "required environment variable X is not set" for the
first such variable X in that order. -/
theorem loadConfig_fails_iff_required_missing (env : Env) :
    requiredEnvVars = ["EMAIL_FROM".toList, "EMAIL_PASSWORD".toList, "EMAIL_TO".toList,
      "SMTP_HOST".toList, "SMTP_PORT".toList] ∧
    ((loadConfig env).2 ≠ none ↔ ∃ X ∈ requiredEnvVars, unsetOrEmpty env X) ∧
    ((loadConfig env).2 ≠ none →
      ∃ pre X post, requiredEnvVars = pre ++ X :: post ∧
        (∀ Y ∈ pre, ¬ unsetOrEmpty env Y) ∧ unsetOrEmpty env X ∧
        loadConfig env = (Config.zero,
          some ("required environment variable ".toList ++ X ++ " is not set".toList))) := by
  refine ⟨rfl, ?_, ?_⟩
  · cases h : checkRequired env requiredEnvVars with
    | none =>
      have h2 := (checkRequired_eq_none_iff env requiredEnvVars).1 h
      simp only [loadConfig, h, ne_eq, not_true_eq_false, false_iff, not_exists, not_and]
      intro X hX hm
      exact h2 X hX ((Getenv_eq_nil_iff env X).2 hm)
    | some err =>
      obtain ⟨pre, X, post, h1, _, h3, _⟩ := checkRequired_eq_some env _ err h
      simp only [loadConfig, h, ne_eq, reduceCtorEq, not_false_eq_true, true_iff]
      exact ⟨X, by rw [h1]; simp, (Getenv_eq_nil_iff env X).1 h3⟩
  · intro hfail
    cases h : checkRequired env requiredEnvVars with
    | none => simp [loadConfig, h] at hfail
    | some err =>
      obtain ⟨pre, X, post, h1, h2, h3, h4⟩ := checkRequired_eq_some env _ err h
      refine ⟨pre, X, post, h1, ?_, (Getenv_eq_nil_iff env X).1 h3, ?_⟩
      · intro Y hY hm
        exact h2 Y hY ((Getenv_eq_nil_iff env Y).2 hm)
      · simp only [loadConfig, h, h4, notSetError]

/-- C3 at `envMissing`: two variables are missing and the error names the
first of them in the check order, EMAIL_PASSWORD. -/
theorem loadConfig_fails_iff_required_missing_witness :
    (loadConfig envMissing).2 ≠ none ∧
    loadConfig envMissing =
      (Config.zero, some "required environment variable EMAIL_PASSWORD is not set".toList) :=
  ⟨(loadConfig_fails_iff_required_missing envMissing).2.1.2
      ⟨"SMTP_PORT".toList, by decide, by decide⟩, by decide⟩

/-- C4. When EMAIL_TO is the comma-joined string of a non-empty list of
comma-free entries, the joined string is non-empty and the other four required
variables are set, `loadConfig` succeeds and `EmailTo` holds one entry per
input entry, in the same order, each being the input entry with all leading
and trailing white space removed (nothing dropped, merged or deduplicated). -/
theorem loadConfig_recipients (env : Env) (es : List Str)
    (hne : es ≠ []) (hcomma : ∀ e ∈ es, ',' ∉ e) (hjoin : Join es ",".toList ≠ [])
    (hto : env.lookup "EMAIL_TO".toList = some (Join es ",".toList))
    (hothers : ∀ X ∈ ["EMAIL_FROM".toList, "EMAIL_PASSWORD".toList, "SMTP_HOST".toList,
      "SMTP_PORT".toList], ¬ unsetOrEmpty env X) :
    (loadConfig env).2 = none ∧
    (loadConfig env).1.EmailTo = es.map TrimSpace ∧
    (loadConfig env).1.EmailTo.length = es.length ∧
    List.Forall₂ Trimmed es (loadConfig env).1.EmailTo := by
  have hget : Getenv env "EMAIL_TO".toList = Join es ",".toList := by
    unfold Getenv
    rw [hto]
    rfl
  have hreq : checkRequired env requiredEnvVars = none := by
    rw [checkRequired_eq_none_iff]
    intro X hX
    rw [ne_eq, Getenv_eq_nil_iff]
    simp only [requiredEnvVars, List.mem_cons, List.mem_singleton, List.not_mem_nil,
      or_false] at hX
    rcases hX with rfl | rfl | rfl | rfl | rfl
    · exact hothers _ (by simp)
    · exact hothers _ (by simp)
    · rw [← Getenv_eq_nil_iff, hget]; exact hjoin
    · exact hothers _ (by simp)
    · exact hothers _ (by simp)
  have hsplit : Split (Join es ",".toList) ',' = es := Split_Join es ',' hne hcomma
  have hto2 : (loadConfig env).1.EmailTo = es.map TrimSpace := by
    simp only [loadConfig, hreq, hget, hsplit]
  refine ⟨by simp only [loadConfig, hreq], hto2, by rw [hto2, List.length_map], ?_⟩
  rw [hto2, List.forall₂_map_right_iff]
  exact List.forall₂_same.2 (fun e _ => TrimSpace_Trimmed e)

/-- C4 at `envSample`: three entries with surrounding blanks and a repeated
address give three trimmed recipients, the repetition kept. -/
theorem loadConfig_recipients_witness :
    (loadConfig envSample).2 = none ∧
    (loadConfig envSample).1.EmailTo = entriesSample.map TrimSpace ∧
    (loadConfig envSample).1.EmailTo.length = entriesSample.length ∧
    List.Forall₂ Trimmed entriesSample (loadConfig envSample).1.EmailTo ∧
    (loadConfig envSample).1.EmailTo =
      ["a@example.com".toList, "b@example.com".toList, "a@example.com".toList] :=
  have h := loadConfig_recipients envSample entriesSample (by decide) (by decide) (by decide)
    (by decide) (by decide)
  ⟨h.1, h.2.1, h.2.2.1, h.2.2.2, by decide⟩

/-! ### The handler against the reference run -/

theorem runSteps_cons (smtp : Session) (tr rest : List SmtpOp) (op : SmtpOp) :
    runSteps smtp tr (op :: rest) =
      match smtp tr op with
      | some _ => (tr ++ [op], some op)
      | none => runSteps smtp (tr ++ [op]) rest := by
  simp only [runSteps]

theorem runSteps_of_succeeds (smtp : Session) (steps tr : List SmtpOp)
    (h : ∀ j op, steps[j]? = some op → smtp (tr ++ steps.take j) op = none) :
    runSteps smtp tr steps = (tr ++ steps, none) := by
  induction steps generalizing tr with
  | nil => simp [runSteps]
  | cons s rest ih =>
    have h0 : smtp tr s = none := by simpa using h 0 s (by simp)
    have := ih (tr ++ [s]) (fun j op hj => by
      have := h (j + 1) op (by simpa using hj)
      simpa using this)
    simp [runSteps, h0, this]

theorem runSteps_of_fails (smtp : Session) (steps tr : List SmtpOp) (k : Nat) (op : SmtpOp)
    (e : Str)
    (hb : ∀ j o, j < k → steps[j]? = some o → smtp (tr ++ steps.take j) o = none)
    (hk : steps[k]? = some op) (he : smtp (tr ++ steps.take k) op = some e) :
    runSteps smtp tr steps = (tr ++ steps.take (k + 1), some op) := by
  induction steps generalizing tr k with
  | nil => simp at hk
  | cons s rest ih =>
    cases k with
    | zero =>
      simp at hk he
      subst hk
      simp [runSteps, he]
    | succ k =>
      have h0 : smtp tr s = none := by simpa using hb 0 s (by omega) (by simp)
      have := ih (tr ++ [s]) k (fun j o hj ho => by
        have := hb (j + 1) o (by omega) (by simpa using ho)
        simpa using this) (by simpa using hk) (by simpa using he)
      simp [runSteps, h0, this]

theorem runSteps_cases (smtp : Session) (steps tr : List SmtpOp) :
    ((∀ j op, steps[j]? = some op → smtp (tr ++ steps.take j) op = none) ∧
      runSteps smtp tr steps = (tr ++ steps, none)) ∨
    ∃ k op e, (∀ j o, j < k → steps[j]? = some o → smtp (tr ++ steps.take j) o = none) ∧
      steps[k]? = some op ∧ smtp (tr ++ steps.take k) op = some e ∧
      runSteps smtp tr steps = (tr ++ steps.take (k + 1), some op) := by
  induction steps generalizing tr with
  | nil => left; simp [runSteps]
  | cons s rest ih =>
    cases h0 : smtp tr s with
    | some e =>
      right
      exact ⟨0, s, e, by simp, by simp, by simpa using h0, by simp [runSteps, h0]⟩
    | none =>
      rcases ih (tr ++ [s]) with ⟨h1, h2⟩ | ⟨k, op, e, h1, h2, h3, h4⟩
      · left
        refine ⟨?_, by simp [runSteps, h0, h2]⟩
        intro j op hj
        cases j with
        | zero => simp at hj; subst hj; simpa using h0
        | succ j => simpa using h1 j op (by simpa using hj)
      · right
        refine ⟨k + 1, op, e, ?_, by simpa using h2, by simpa using h3,
          by simp [runSteps, h0, h4]⟩
        intro j o hj ho
        cases j with
        | zero => simp at ho; subst ho; simpa using h0
        | succ j => simpa using h1 j o (by omega) (by simpa using ho)

theorem rcptLoop_runSteps (smtp : Session) (rs : List Str) (tr rest : List SmtpOp) :
    (∃ tr1 e r, rcptLoop smtp tr rs = (tr1, some e) ∧
      runSteps smtp tr (rs.map SmtpOp.Rcpt ++ rest) = (tr1, some (SmtpOp.Rcpt r))) ∨
    (rcptLoop smtp tr rs = (tr ++ rs.map SmtpOp.Rcpt, none) ∧
      runSteps smtp tr (rs.map SmtpOp.Rcpt ++ rest) =
        runSteps smtp (tr ++ rs.map SmtpOp.Rcpt) rest) := by
  induction rs generalizing tr with
  | nil => right; simp [rcptLoop]
  | cons r rs ih =>
    cases h0 : smtp tr (SmtpOp.Rcpt r) with
    | some e =>
      left
      exact ⟨tr ++ [SmtpOp.Rcpt r], e, r, by simp [rcptLoop, call, h0], by simp [runSteps, h0]⟩
    | none =>
      rcases ih (tr ++ [SmtpOp.Rcpt r]) with ⟨tr1, e, r1, h1, h2⟩ | ⟨h1, h2⟩
      · left
        exact ⟨tr1, e, r1, by simp [rcptLoop, call, h0, h1], by simp [runSteps, h0, h2]⟩
      · right
        exact ⟨by simp [rcptLoop, call, h0, h1], by simp [runSteps, h0, h2]⟩

theorem session_eq (config : Config) (currentTime : Str) (smtp : Session)
    (tr : List SmtpOp) (w : ResponseWriter) :
    session config currentTime smtp tr w =
      match runSteps smtp tr (sessionSteps config currentTime) with
      | (tr1, none) => (tr1 ++ [SmtpOp.Quit], returnJSONSuccess w)
      | (tr1, some op) => (tr1, returnJSONError w (failureMessage op)) := by
  unfold session sessionSteps
  simp only [call, List.cons_append, List.nil_append, runSteps, List.append_eq]
  cases h1 : smtp tr (SmtpOp.StartTLS true config.SmtpHost) with
  | some e => simp [failureMessage, stageOf, stageMessage]
  | none =>
  simp only []
  cases h2 : smtp (tr ++ [SmtpOp.StartTLS true config.SmtpHost])
    (SmtpOp.Auth [] (senderEmail config.EmailFrom) config.EmailPassword config.SmtpHost) with
  | some e => simp [failureMessage, stageOf, stageMessage]
  | none =>
  simp only []
  cases h3 : smtp (tr ++ [SmtpOp.StartTLS true config.SmtpHost] ++
    [SmtpOp.Auth [] (senderEmail config.EmailFrom) config.EmailPassword config.SmtpHost])
    (SmtpOp.Mail (senderEmail config.EmailFrom)) with
  | some e => simp [failureMessage, stageOf, stageMessage]
  | none =>
  simp only []
  rcases rcptLoop_runSteps smtp config.EmailTo (tr ++ [SmtpOp.StartTLS true config.SmtpHost] ++
    [SmtpOp.Auth [] (senderEmail config.EmailFrom) config.EmailPassword config.SmtpHost] ++
    [SmtpOp.Mail (senderEmail config.EmailFrom)])
    [SmtpOp.Data, SmtpOp.Write (message config currentTime), SmtpOp.WriterClose]
    with ⟨tr1, e, r, h4, h5⟩ | ⟨h4, h5⟩
  · rw [h4, h5]
    simp [failureMessage, stageOf, stageMessage]
  · rw [h4, h5]
    simp only [runSteps]
    generalize (tr ++ [SmtpOp.StartTLS true config.SmtpHost] ++
      [SmtpOp.Auth [] (senderEmail config.EmailFrom) config.EmailPassword config.SmtpHost] ++
      [SmtpOp.Mail (senderEmail config.EmailFrom)] ++ List.map SmtpOp.Rcpt config.EmailTo) = t
    cases h6 : smtp t SmtpOp.Data with
    | some e => simp [failureMessage, stageOf, stageMessage]
    | none =>
    simp only []
    cases h7 : smtp (t ++ [SmtpOp.Data]) (SmtpOp.Write (message config currentTime)) with
    | some e => simp [failureMessage, stageOf, stageMessage]
    | none =>
    simp only []
    cases h8 : smtp (t ++ [SmtpOp.Data] ++ [SmtpOp.Write (message config currentTime)])
      SmtpOp.WriterClose with
    | some e => simp [failureMessage, stageOf, stageMessage]
    | none => simp

/-- The handler is the connect step followed, when the connection is open,
by the reference run of `sessionSteps`, then `Quit` on success, then the
deferred `Close`. -/
theorem mailDelivered_eq (config : Config) (currentTime : Str) (smtp : Session)
    (w : ResponseWriter) :
    mailDelivered config currentTime smtp w =
      match smtp [] (SmtpOp.Dial (config.SmtpHost ++ ":".toList ++ config.SmtpPort)) with
      | some _ =>
        ([SmtpOp.Dial (config.SmtpHost ++ ":".toList ++ config.SmtpPort)],
          returnJSONError w (stageMessage Stage.connect))
      | none =>
        match runSteps smtp [SmtpOp.Dial (config.SmtpHost ++ ":".toList ++ config.SmtpPort)]
            (sessionSteps config currentTime) with
        | (tr, none) => (tr ++ [SmtpOp.Quit, SmtpOp.Close], returnJSONSuccess w)
        | (tr, some op) => (tr ++ [SmtpOp.Close], returnJSONError w (failureMessage op)) := by
  unfold mailDelivered
  simp only [call, List.nil_append]
  cases h0 : smtp [] (SmtpOp.Dial (config.SmtpHost ++ ":".toList ++ config.SmtpPort)) with
  | some e => simp [stageMessage]
  | none =>
    simp only [session_eq]
    rcases h : runSteps smtp [SmtpOp.Dial (config.SmtpHost ++ ":".toList ++ config.SmtpPort)]
      (sessionSteps config currentTime) with ⟨tr, _ | op⟩ <;> simp

theorem run_head_of_succeeds (smtp : Session) (dial : SmtpOp) (sess : List SmtpOp)
    (h : AllSucceed smtp (dial :: sess)) :
    smtp [] dial = none ∧ runSteps smtp [dial] sess = (dial :: sess, none) := by
  have hr := runSteps_of_succeeds smtp (dial :: sess) [] (fun j op hj => by
    have hlt : j < (dial :: sess).length := by
      rcases Nat.lt_or_ge j (dial :: sess).length with h1 | h1
      · exact h1
      · rw [List.getElem?_eq_none h1] at hj; cases hj
    simpa using h j op hlt hj)
  rw [runSteps_cons] at hr
  cases h0 : smtp [] dial with
  | some e => simp [h0] at hr
  | none => exact ⟨rfl, by simpa [h0] using hr⟩

theorem run_head_of_fails (smtp : Session) (dial : SmtpOp) (sess : List SmtpOp) (k : Nat)
    (op : SmtpOp) (e : Str) (h : FailsFirstAt smtp (dial :: sess) k op e) :
    (k = 0 ∧ op = dial ∧ smtp [] dial = some e) ∨
    (k ≠ 0 ∧ smtp [] dial = none ∧
      runSteps smtp [dial] sess = ((dial :: sess).take (k + 1), some op)) := by
  obtain ⟨hb, hk, he⟩ := h
  have hr := runSteps_of_fails smtp (dial :: sess) [] k op e
    (fun j o hj ho => by simpa using hb j o hj ho) hk (by simpa using he)
  rw [runSteps_cons] at hr
  cases k with
  | zero =>
    left
    simp at hk
    subst hk
    exact ⟨rfl, rfl, by simpa using he⟩
  | succ k =>
    right
    have h0 : smtp [] dial = none := by simpa using hb 0 dial (by omega) (by simp)
    exact ⟨by omega, h0, by simpa [h0] using hr⟩

theorem mailDelivered_of_succeeds (config : Config) (currentTime : Str) (smtp : Session)
    (w : ResponseWriter) (h : AllSucceed smtp (deliverySteps config currentTime)) :
    mailDelivered config currentTime smtp w =
      (deliverySteps config currentTime ++ [SmtpOp.Quit, SmtpOp.Close], returnJSONSuccess w) := by
  obtain ⟨h0, hr⟩ := run_head_of_succeeds smtp _ _ h
  rw [mailDelivered_eq, h0]
  simp only [hr, deliverySteps]

theorem mailDelivered_of_fails (config : Config) (currentTime : Str) (smtp : Session)
    (w : ResponseWriter) (k : Nat) (op : SmtpOp) (e : Str)
    (h : FailsFirstAt smtp (deliverySteps config currentTime) k op e) :
    mailDelivered config currentTime smtp w =
      ((deliverySteps config currentTime).take (k + 1) ++ (if k = 0 then [] else [SmtpOp.Close]),
        returnJSONError w (failureMessage op)) := by
  rcases run_head_of_fails smtp _ _ k op e h with ⟨hk, hop, h0⟩ | ⟨hk, h0, hr⟩
  · rw [mailDelivered_eq, h0]
    subst hk hop
    simp only [deliverySteps, failureMessage, stageOf, List.take_succ_cons, List.take_zero,
      if_true, List.append_nil]
  · rw [mailDelivered_eq, h0]
    simp only [hr, deliverySteps, if_neg hk]

/-- Every run either has all steps succeed or has a first failing step. -/
theorem outcome_cases (smtp : Session) (steps : List SmtpOp) :
    AllSucceed smtp steps ∨ ∃ k op e, FailsFirstAt smtp steps k op e := by
  rcases runSteps_cases smtp steps [] with ⟨h1, _⟩ | ⟨k, op, e, h1, h2, h3, _⟩
  · left
    intro j op _ hj
    simpa using h1 j op hj
  · right
    exact ⟨k, op, e, fun j o hj ho => by simpa using h1 j o hj ho, h2, by simpa using h3⟩

/-- A first failure excludes overall success. -/
theorem not_allSucceed_of_fails (smtp : Session) (steps : List SmtpOp) (k : Nat) (op : SmtpOp)
    (e : Str) (h : FailsFirstAt smtp steps k op e) : ¬ AllSucceed smtp steps := by
  intro ha
  obtain ⟨_, hk, he⟩ := h
  have hlt : k < steps.length := by
    rcases Nat.lt_or_ge k steps.length with h1 | h1
    · exact h1
    · rw [List.getElem?_eq_none h1] at hk; cases hk
  rw [ha k op hlt hk] at he
  cases he

theorem stageOf_of_mem_deliverySteps (config : Config) (currentTime : Str) (op : SmtpOp)
    (h : op ∈ deliverySteps config currentTime) :
    ∃ st, stageOf op = some st := by
  simp only [deliverySteps, sessionSteps, List.mem_cons, List.mem_append, List.mem_map,
    List.mem_singleton, List.not_mem_nil, or_false] at h
  rcases h with rfl | ((rfl | rfl | rfl) | ⟨r, _, rfl⟩) | rfl | rfl | rfl <;> simp [stageOf]

/-! ### Sample sessions -/

theorem allSucceed_sessionOK (steps : List SmtpOp) : AllSucceed sessionOK steps :=
  fun _ _ _ _ => rfl

theorem failsFirstAt_failAt (steps : List SmtpOp) (k : Nat) (op : SmtpOp) (e : Str)
    (hk : steps[k]? = some op) : FailsFirstAt (failAt k e) steps k op e := by
  have hlt : k < steps.length := by
    rcases Nat.lt_or_ge k steps.length with h1 | h1
    · exact h1
    · rw [List.getElem?_eq_none h1] at hk; cases hk
  refine ⟨?_, hk, ?_⟩
  · intro j o hj _
    have : (steps.take j).length ≠ k := by rw [List.length_take]; omega
    unfold failAt
    rw [if_neg this]
  · have : (steps.take k).length = k := by rw [List.length_take]; omega
    unfold failAt
    rw [if_pos this]

/-! ### Steps and traces -/

theorem quit_not_mem_deliverySteps (config : Config) (currentTime : Str) :
    SmtpOp.Quit ∉ deliverySteps config currentTime := by
  intro h
  obtain ⟨st, hst⟩ := stageOf_of_mem_deliverySteps config currentTime _ h
  simp [stageOf] at hst

theorem close_not_mem_deliverySteps (config : Config) (currentTime : Str) :
    SmtpOp.Close ∉ deliverySteps config currentTime := by
  intro h
  obtain ⟨st, hst⟩ := stageOf_of_mem_deliverySteps config currentTime _ h
  simp [stageOf] at hst

theorem count_take_eq_zero (x : SmtpOp) (l : List SmtpOp) (n : Nat) (h : x ∉ l) :
    (l.take n).count x = 0 :=
  List.count_eq_zero.2 (fun hx => h (List.mem_of_mem_take hx))

/-- In a list that ends with its only occurrence of `x`, the initial segment
through position `k` holds `x` exactly when position `k` does. -/
theorem count_take_of_last (x op : SmtpOp) (pre : List SmtpOp) (k : Nat) (hx : x ∉ pre)
    (hk : (pre ++ [x])[k]? = some op) :
    ((pre ++ [x]).take (k + 1)).count x = if op = x then 1 else 0 := by
  rcases Nat.lt_or_ge k pre.length with h1 | h1
  · rw [List.getElem?_append_left h1] at hk
    have hmem : op ∈ pre := List.getElem?_mem hk
    have hne : op ≠ x := fun h => hx (h ▸ hmem)
    rw [if_neg hne, List.take_append_of_le_length (by omega)]
    exact count_take_eq_zero x pre _ hx
  · have hk2 : k = pre.length := by
      rcases Nat.lt_or_ge pre.length k with h2 | h2
      · rw [List.getElem?_eq_none (by simp; omega)] at hk; cases hk
      · omega
    subst hk2
    simp at hk
    subst hk
    rw [List.take_of_length_le (by simp)]
    simp [List.count_eq_zero.2 hx]

theorem deliverySteps_eq_append (config : Config) (currentTime : Str) :
    deliverySteps config currentTime =
      ([SmtpOp.Dial (config.SmtpHost ++ ":".toList ++ config.SmtpPort),
        SmtpOp.StartTLS true config.SmtpHost,
        SmtpOp.Auth [] (senderEmail config.EmailFrom) config.EmailPassword config.SmtpHost,
        SmtpOp.Mail (senderEmail config.EmailFrom)] ++ config.EmailTo.map SmtpOp.Rcpt ++
        [SmtpOp.Data, SmtpOp.Write (message config currentTime)]) ++ [SmtpOp.WriterClose] := by
  simp [deliverySteps, sessionSteps]

theorem writerClose_not_mem_init (config : Config) (currentTime : Str) :
    SmtpOp.WriterClose ∉
      ([SmtpOp.Dial (config.SmtpHost ++ ":".toList ++ config.SmtpPort),
        SmtpOp.StartTLS true config.SmtpHost,
        SmtpOp.Auth [] (senderEmail config.EmailFrom) config.EmailPassword config.SmtpHost,
        SmtpOp.Mail (senderEmail config.EmailFrom)] ++ config.EmailTo.map SmtpOp.Rcpt ++
        [SmtpOp.Data, SmtpOp.Write (message config currentTime)]) := by
  simp

theorem returnJSONError_fresh (m : Str) :
    returnJSONError ResponseWriter.fresh m = errorResponse m := by
  simp [returnJSONError, errorResponse, ResponseWriter.fresh, ResponseWriter.headerSet,
    ResponseWriter.WriteHeader, ResponseWriter.Encode]

theorem returnJSONSuccess_fresh :
    returnJSONSuccess ResponseWriter.fresh = successResponse := by
  simp [returnJSONSuccess, successResponse, ResponseWriter.fresh, ResponseWriter.headerSet,
    ResponseWriter.WriteHeader, ResponseWriter.Encode]

/-- The operations of a run: an initial segment of the steps, then at most
`Quit` and `Close`. -/
theorem mem_trace (config : Config) (currentTime : Str) (smtp : Session) (w : ResponseWriter)
    (o : SmtpOp) (h : o ∈ (mailDelivered config currentTime smtp w).1) :
    o ∈ deliverySteps config currentTime ∨ o = SmtpOp.Quit ∨ o = SmtpOp.Close := by
  rcases outcome_cases smtp (deliverySteps config currentTime) with ha | ⟨k, op, e, hf⟩
  · rw [mailDelivered_of_succeeds _ _ _ _ ha] at h
    simp only [List.mem_append, List.mem_cons, List.mem_singleton, List.not_mem_nil,
      or_false] at h
    exact h
  · rw [mailDelivered_of_fails _ _ _ _ _ _ _ hf] at h
    simp only [List.mem_append] at h
    rcases h with h | h
    · exact Or.inl (List.mem_of_mem_take h)
    · split at h
      · cases h
      · simp only [List.mem_singleton] at h
        exact Or.inr (Or.inr h)

/-! ## The delivery handler -/

/-- C1. When step `k` of the delivery (in the order connect, starttls, auth,
mail-from, rcpt-to per recipient, data-open, data-write, data-close) is the
first to fail, with whatever error value `e`, the handler answers with status
500 and the JSON object with `success` false and `error` the message of the
failing step's stage, and the operations it issued are the steps up to and
including the failing one, followed only by the deferred `Close` when the
connection had been opened: no later step is attempted. -/
theorem mailDelivered_failure_response (config : Config) (currentTime : Str) (smtp : Session)
    (k : Nat) (op : SmtpOp) (e : Str)
    (h : FailsFirstAt smtp (deliverySteps config currentTime) k op e) :
    ∃ st, stageOf op = some st ∧
      (mailDelivered config currentTime smtp ResponseWriter.fresh).2 =
        errorResponse (stageMessage st) ∧
      (mailDelivered config currentTime smtp ResponseWriter.fresh).1 =
        (deliverySteps config currentTime).take (k + 1) ++
          (if k = 0 then [] else [SmtpOp.Close]) := by
  obtain ⟨st, hst⟩ := stageOf_of_mem_deliverySteps config currentTime op (List.getElem?_mem h.2.1)
  refine ⟨st, hst, ?_, ?_⟩
  · rw [mailDelivered_of_fails _ _ _ _ _ _ _ h]
    simp only [failureMessage, hst, returnJSONError_fresh]
  · rw [mailDelivered_of_fails _ _ _ _ _ _ _ h]

/-- C1 at `configSample` with the second recipient rejected: the response is
the 500 error of stage rcpt-to, and after the rejected recipient only `Close`
is issued. -/
theorem mailDelivered_failure_response_witness :
    FailsFirstAt (failAt 5 "550 mailbox unavailable".toList)
      (deliverySteps configSample timeSample) 5 (SmtpOp.Rcpt "b@example.com".toList)
      "550 mailbox unavailable".toList ∧
    (mailDelivered configSample timeSample (failAt 5 "550 mailbox unavailable".toList)
      ResponseWriter.fresh).2 = errorResponse "Failed to set recipient".toList ∧
    (mailDelivered configSample timeSample (failAt 5 "550 mailbox unavailable".toList)
      ResponseWriter.fresh).1 =
      [SmtpOp.Dial "smtp.example.com:587".toList,
       SmtpOp.StartTLS true "smtp.example.com".toList,
       SmtpOp.Auth [] "jane@example.com".toList "secret".toList "smtp.example.com".toList,
       SmtpOp.Mail "jane@example.com".toList,
       SmtpOp.Rcpt "a@example.com".toList,
       SmtpOp.Rcpt "b@example.com".toList,
       SmtpOp.Close] := by
  have hf := failsFirstAt_failAt (deliverySteps configSample timeSample) 5
    (SmtpOp.Rcpt "b@example.com".toList) "550 mailbox unavailable".toList rfl
  obtain ⟨st, h1, h2, h3⟩ := mailDelivered_failure_response _ _ _ _ _ _ hf
  cases h1
  exact ⟨hf, h2, h3.trans (by decide)⟩

/-- C2, as the code has it. When every step succeeds the handler answers
with status 200 and the JSON object with `success` true, whatever `Quit`
returns, and the operations it issued are, in order: `Dial` of host:port,
`StartTLS`, `Auth` with the extracted sender address and the configured
password, `Mail` of the extracted sender address, one `Rcpt` per entry of
`EmailTo` in the list's order, `Data`, one `Write` of the composed message,
the data writer's close, `Quit`, and last the deferred `Close` of the client. -/
theorem mailDelivered_success (config : Config) (currentTime : Str) (smtp : Session)
    (h : AllSucceed smtp (deliverySteps config currentTime)) :
    (mailDelivered config currentTime smtp ResponseWriter.fresh).2 = successResponse ∧
    (mailDelivered config currentTime smtp ResponseWriter.fresh).1 =
      [SmtpOp.Dial (config.SmtpHost ++ ":".toList ++ config.SmtpPort),
       SmtpOp.StartTLS true config.SmtpHost,
       SmtpOp.Auth [] (senderEmail config.EmailFrom) config.EmailPassword config.SmtpHost,
       SmtpOp.Mail (senderEmail config.EmailFrom)] ++
      config.EmailTo.map SmtpOp.Rcpt ++
      [SmtpOp.Data, SmtpOp.Write (message config currentTime), SmtpOp.WriterClose,
       SmtpOp.Quit, SmtpOp.Close] := by
  rw [mailDelivered_of_succeeds _ _ _ _ h]
  refine ⟨returnJSONSuccess_fresh, ?_⟩
  simp only [deliverySteps, sessionSteps, List.cons_append, List.nil_append, List.append_assoc]

/-- C2 at `configSample` with a session in which only `Quit` fails. -/
theorem mailDelivered_success_witness :
    AllSucceed quitFails (deliverySteps configSample timeSample) ∧
    (mailDelivered configSample timeSample quitFails ResponseWriter.fresh).2 = successResponse ∧
    (mailDelivered configSample timeSample quitFails ResponseWriter.fresh).1 =
      [SmtpOp.Dial "smtp.example.com:587".toList,
       SmtpOp.StartTLS true "smtp.example.com".toList,
       SmtpOp.Auth [] "jane@example.com".toList "secret".toList "smtp.example.com".toList,
       SmtpOp.Mail "jane@example.com".toList,
       SmtpOp.Rcpt "a@example.com".toList,
       SmtpOp.Rcpt "b@example.com".toList,
       SmtpOp.Data,
       SmtpOp.Write (message configSample timeSample),
       SmtpOp.WriterClose, SmtpOp.Quit, SmtpOp.Close] := by
  have ha : AllSucceed quitFails (deliverySteps configSample timeSample) := by
    intro j op _ hj
    have hne : op ≠ SmtpOp.Quit := fun hq =>
      quit_not_mem_deliverySteps configSample timeSample (hq ▸ List.getElem?_mem hj)
    simp [quitFails, hne]
  have h := mailDelivered_success configSample timeSample quitFails ha
  exact ⟨ha, h.1, h.2.trans rfl⟩

/-- C2 as stated fails: in a session where everything succeeds the list of
operations issued is not the list that ends with `Quit`; the deferred `Close`
of the client follows it. -/
theorem mailDelivered_success_ops_counterexample :
    AllSucceed sessionOK (deliverySteps configSample timeSample) ∧
    (mailDelivered configSample timeSample sessionOK ResponseWriter.fresh).1 ≠
      [SmtpOp.Dial (configSample.SmtpHost ++ ":".toList ++ configSample.SmtpPort),
       SmtpOp.StartTLS true configSample.SmtpHost,
       SmtpOp.Auth [] (senderEmail configSample.EmailFrom) configSample.EmailPassword
         configSample.SmtpHost,
       SmtpOp.Mail (senderEmail configSample.EmailFrom)] ++
      configSample.EmailTo.map SmtpOp.Rcpt ++
      [SmtpOp.Data, SmtpOp.Write (message configSample timeSample), SmtpOp.WriterClose,
       SmtpOp.Quit] ∧
    (mailDelivered configSample timeSample sessionOK ResponseWriter.fresh).1.getLast? =
      some SmtpOp.Close := by
  refine ⟨allSucceed_sessionOK _, ?_, by decide⟩
  intro h
  have := congrArg List.length h
  revert this
  decide

/-- C8. When `Dial` succeeds the client's `Close` is invoked exactly once
and is the last operation of the run, whether the session then succeeds or
fails at any later stage; when `Dial` fails `Close` is not invoked. -/
theorem client_close_exactly_once (config : Config) (currentTime : Str) (smtp : Session)
    (w : ResponseWriter) :
    (smtp [] (SmtpOp.Dial (config.SmtpHost ++ ":".toList ++ config.SmtpPort)) = none →
      (mailDelivered config currentTime smtp w).1.count SmtpOp.Close = 1 ∧
      (mailDelivered config currentTime smtp w).1.getLast? = some SmtpOp.Close) ∧
    (smtp [] (SmtpOp.Dial (config.SmtpHost ++ ":".toList ++ config.SmtpPort)) ≠ none →
      (mailDelivered config currentTime smtp w).1.count SmtpOp.Close = 0) := by
  have hc := close_not_mem_deliverySteps config currentTime
  rcases outcome_cases smtp (deliverySteps config currentTime) with ha | ⟨k, op, e, hf⟩
  · have h0 := (run_head_of_succeeds smtp _ _ ha).1
    rw [mailDelivered_of_succeeds _ _ _ _ ha]
    refine ⟨fun _ => ⟨?_, ?_⟩, fun hne => absurd h0 hne⟩
    · rw [List.count_append, List.count_eq_zero.2 hc]
      decide
    · rw [List.getLast?_append]
      rfl
  · rw [mailDelivered_of_fails _ _ _ _ _ _ _ hf]
    rcases run_head_of_fails smtp _ _ k op e hf with ⟨hk, _, h0⟩ | ⟨hk, h0, _⟩
    · refine ⟨fun hd => ?_, fun _ => ?_⟩
      · rw [h0] at hd; cases hd
      · rw [if_pos hk, List.append_nil]
        exact count_take_eq_zero _ _ _ hc
    · refine ⟨fun _ => ⟨?_, ?_⟩, fun hne => absurd h0 hne⟩
      · rw [if_neg hk, List.count_append, count_take_eq_zero _ _ _ hc]
        decide
      · rw [if_neg hk, List.getLast?_append]
        rfl

/-- C8 at `configSample`: a run that fails at data-write closes the client
once, at the end; a run whose `Dial` fails never closes it. -/
theorem client_close_exactly_once_witness :
    ((mailDelivered configSample timeSample (failAt 7 "broken pipe".toList)
        ResponseWriter.fresh).1.count SmtpOp.Close = 1 ∧
      (mailDelivered configSample timeSample (failAt 7 "broken pipe".toList)
        ResponseWriter.fresh).1.getLast? = some SmtpOp.Close) ∧
    (mailDelivered configSample timeSample (failAt 0 "connection refused".toList)
        ResponseWriter.fresh).1.count SmtpOp.Close = 0 :=
  ⟨(client_close_exactly_once configSample timeSample (failAt 7 "broken pipe".toList)
      ResponseWriter.fresh).1 rfl,
   (client_close_exactly_once configSample timeSample (failAt 0 "connection refused".toList)
      ResponseWriter.fresh).2 (by decide)⟩

/-- C9, as the code has it, for the handler's own calls on the client. The
handler calls `Quit` exactly once when every step succeeds and does not call
it when a step fails; and the answer of the session to `Quit` never changes
the HTTP response: two sessions that differ only on `Quit` give the same
response. What the library sends by itself inside a failing call is not a
call of the handler and is not counted. -/
theorem quit_only_on_success (config : Config) (currentTime : Str) (smtp : Session)
    (w : ResponseWriter) :
    (AllSucceed smtp (deliverySteps config currentTime) →
      (mailDelivered config currentTime smtp w).1.count SmtpOp.Quit = 1) ∧
    (∀ k op e, FailsFirstAt smtp (deliverySteps config currentTime) k op e →
      (mailDelivered config currentTime smtp w).1.count SmtpOp.Quit = 0) ∧
    (∀ smtp2 : Session, (∀ tr op, op ≠ SmtpOp.Quit → smtp2 tr op = smtp tr op) →
      (mailDelivered config currentTime smtp2 w).2 =
        (mailDelivered config currentTime smtp w).2) := by
  have hq := quit_not_mem_deliverySteps config currentTime
  refine ⟨fun ha => ?_, fun k op e hf => ?_, fun smtp2 hagree => ?_⟩
  · rw [mailDelivered_of_succeeds _ _ _ _ ha, List.count_append, List.count_eq_zero.2 hq]
    decide
  · rw [mailDelivered_of_fails _ _ _ _ _ _ _ hf, List.count_append,
      count_take_eq_zero _ _ _ hq]
    split <;> decide
  · have hne : ∀ j op, (deliverySteps config currentTime)[j]? = some op → op ≠ SmtpOp.Quit :=
      fun j op hj hop => hq (hop ▸ List.getElem?_mem hj)
    rcases outcome_cases smtp (deliverySteps config currentTime) with ha | ⟨k, op, e, hf⟩
    · have ha2 : AllSucceed smtp2 (deliverySteps config currentTime) := fun j op hlt hj => by
        rw [hagree _ _ (hne j op hj)]
        exact ha j op hlt hj
      rw [mailDelivered_of_succeeds _ _ _ _ ha, mailDelivered_of_succeeds _ _ _ _ ha2]
    · have hf2 : FailsFirstAt smtp2 (deliverySteps config currentTime) k op e := by
        refine ⟨fun j o hlt hj => ?_, hf.2.1, ?_⟩
        · rw [hagree _ _ (hne j o hj)]
          exact hf.1 j o hlt hj
        · rw [hagree _ _ (hne k op hf.2.1)]
          exact hf.2.2
      rw [mailDelivered_of_fails _ _ _ _ _ _ _ hf, mailDelivered_of_fails _ _ _ _ _ _ _ hf2]

/-- C9 at `configSample`: one `Quit` in the all-success run, none in the run
that fails at STARTTLS, and a failing `Quit` leaves the response as it is. -/
theorem quit_only_on_success_witness :
    (mailDelivered configSample timeSample sessionOK ResponseWriter.fresh).1.count
      SmtpOp.Quit = 1 ∧
    (mailDelivered configSample timeSample (failAt 1 "tls: handshake failure".toList)
      ResponseWriter.fresh).1.count SmtpOp.Quit = 0 ∧
    (mailDelivered configSample timeSample quitFails ResponseWriter.fresh).2 =
      (mailDelivered configSample timeSample sessionOK ResponseWriter.fresh).2 :=
  ⟨(quit_only_on_success configSample timeSample sessionOK ResponseWriter.fresh).1
      (allSucceed_sessionOK _),
   (quit_only_on_success configSample timeSample (failAt 1 "tls: handshake failure".toList)
      ResponseWriter.fresh).2.1 1 (SmtpOp.StartTLS true configSample.SmtpHost)
      "tls: handshake failure".toList (failsFirstAt_failAt _ _ _ _ rfl),
   (quit_only_on_success configSample timeSample sessionOK ResponseWriter.fresh).2.2 quitFails
      (fun _ op hne => by simp [quitFails, sessionOK, hne])⟩

/-- C9 as stated fails at every stage after connect. In the session whose
connection is opened and whose STARTTLS step fails the handler's calls are
`Dial`, `StartTLS`, `Close`, with no `Quit`; and for each later position of
the failure (auth, mail-from, first and second rcpt-to, data-open, data-write,
data-close) the handler makes no call of `Quit` either. -/
theorem quit_counterexample :
    failAt 1 "tls: handshake failure".toList []
      (SmtpOp.Dial (configSample.SmtpHost ++ ":".toList ++ configSample.SmtpPort)) = none ∧
    FailsFirstAt (failAt 1 "tls: handshake failure".toList)
      (deliverySteps configSample timeSample) 1 (SmtpOp.StartTLS true configSample.SmtpHost)
      "tls: handshake failure".toList ∧
    (mailDelivered configSample timeSample (failAt 1 "tls: handshake failure".toList)
      ResponseWriter.fresh).1 =
      [SmtpOp.Dial "smtp.example.com:587".toList,
       SmtpOp.StartTLS true "smtp.example.com".toList, SmtpOp.Close] ∧
    (mailDelivered configSample timeSample (failAt 1 "tls: handshake failure".toList)
      ResponseWriter.fresh).1.count SmtpOp.Quit ≠ 1 ∧
    [2, 3, 4, 5, 6, 7, 8].map (fun k =>
      (((deliverySteps configSample timeSample)[k]?).bind stageOf,
        (mailDelivered configSample timeSample (failAt k "failure".toList)
          ResponseWriter.fresh).1.count SmtpOp.Quit)) =
      [(some Stage.auth, 0), (some Stage.mailFrom, 0), (some Stage.rcptTo, 0),
       (some Stage.rcptTo, 0), (some Stage.dataOpen, 0), (some Stage.dataWrite, 0),
       (some Stage.dataClose, 0)] :=
  ⟨rfl, failsFirstAt_failAt _ _ _ _ rfl, by decide, by decide, by decide⟩

/-- C10, as the code has it. With the data stream opened, the data writer's
close is invoked exactly once when the write of the message succeeds (the
run then succeeds or fails at data-close) and is not invoked when the write
of the message fails. -/
theorem writer_close_only_after_write (config : Config) (currentTime : Str) (smtp : Session)
    (w : ResponseWriter) :
    (AllSucceed smtp (deliverySteps config currentTime) →
      (mailDelivered config currentTime smtp w).1.count SmtpOp.WriterClose = 1) ∧
    (∀ k e, FailsFirstAt smtp (deliverySteps config currentTime) k SmtpOp.WriterClose e →
      (mailDelivered config currentTime smtp w).1.count SmtpOp.WriterClose = 1) ∧
    (∀ k p e, FailsFirstAt smtp (deliverySteps config currentTime) k (SmtpOp.Write p) e →
      (mailDelivered config currentTime smtp w).1.count SmtpOp.WriterClose = 0) := by
  have hpre := writerClose_not_mem_init config currentTime
  have hsteps := deliverySteps_eq_append config currentTime
  have htail : ∀ k : Nat,
      List.count SmtpOp.WriterClose (if k = 0 then [] else [SmtpOp.Close]) = 0 := by
    intro k
    split <;> rfl
  refine ⟨fun ha => ?_, fun k e hf => ?_, fun k p e hf => ?_⟩
  · rw [mailDelivered_of_succeeds _ _ _ _ ha, hsteps, List.count_append, List.count_append,
      List.count_eq_zero.2 hpre]
    decide
  · rw [mailDelivered_of_fails _ _ _ _ _ _ _ hf, List.count_append]
    have hk := hf.2.1
    rw [hsteps] at hk ⊢
    rw [count_take_of_last _ _ _ _ hpre hk, htail, if_pos rfl]
  · rw [mailDelivered_of_fails _ _ _ _ _ _ _ hf, List.count_append]
    have hk := hf.2.1
    rw [hsteps] at hk ⊢
    rw [count_take_of_last _ _ _ _ hpre hk, htail, if_neg (by simp)]

/-- C10 at `configSample`: the writer is closed once in the all-success run
and in the run that fails at data-close, and not at all in the run whose
write fails. -/
theorem writer_close_only_after_write_witness :
    (mailDelivered configSample timeSample sessionOK ResponseWriter.fresh).1.count
      SmtpOp.WriterClose = 1 ∧
    (mailDelivered configSample timeSample (failAt 8 "554 rejected".toList)
      ResponseWriter.fresh).1.count SmtpOp.WriterClose = 1 ∧
    (mailDelivered configSample timeSample (failAt 7 "broken pipe".toList)
      ResponseWriter.fresh).1.count SmtpOp.WriterClose = 0 :=
  ⟨(writer_close_only_after_write configSample timeSample sessionOK ResponseWriter.fresh).1
      (allSucceed_sessionOK _),
   (writer_close_only_after_write configSample timeSample (failAt 8 "554 rejected".toList)
      ResponseWriter.fresh).2.1 8 "554 rejected".toList (failsFirstAt_failAt _ _ _ _ rfl),
   (writer_close_only_after_write configSample timeSample (failAt 7 "broken pipe".toList)
      ResponseWriter.fresh).2.2 7 (message configSample timeSample) "broken pipe".toList
      (failsFirstAt_failAt _ _ _ _ rfl)⟩

/-- C10 as stated fails: in a session where `Data` succeeds and the write of
the message fails, the data writer's close is never invoked. -/
theorem writer_close_counterexample :
    FailsFirstAt (failAt 7 "broken pipe".toList) (deliverySteps configSample timeSample) 7
      (SmtpOp.Write (message configSample timeSample)) "broken pipe".toList ∧
    failAt 7 "broken pipe".toList ((deliverySteps configSample timeSample).take 6)
      SmtpOp.Data = none ∧
    (mailDelivered configSample timeSample (failAt 7 "broken pipe".toList)
      ResponseWriter.fresh).1.count SmtpOp.WriterClose = 0 ∧
    (mailDelivered configSample timeSample (failAt 7 "broken pipe".toList)
      ResponseWriter.fresh).1.count SmtpOp.WriterClose ≠ 1 :=
  ⟨failsFirstAt_failAt _ _ _ _ rfl, rfl, by decide, by decide⟩

/-! ## Sender address -/

theorem TrimSuffix_append (a suffix : Str) : TrimSuffix (a ++ suffix) suffix = a := by
  unfold TrimSuffix
  have h : suffix.isSuffixOf (a ++ suffix) = true := by
    rw [List.isSuffixOf_iff_suffix]
    exact List.suffix_append a suffix
  rw [if_pos h]
  simp

theorem TrimSuffix_length_le (s suffix : Str) : (TrimSuffix s suffix).length ≤ s.length := by
  unfold TrimSuffix
  split
  · rw [List.length_take]; omega
  · exact Nat.le_refl _

theorem Split_head_length (s : Str) (sep : Char) :
    ((Split s sep).getD 0 []).length ≤ s.length := by
  induction s with
  | nil => simp [Split]
  | cons c cs ih =>
    unfold Split
    split
    · simp
    · cases h : Split cs sep with
      | nil => exact absurd h (Split_ne_nil cs sep)
      | cons p ps =>
        rw [h] at ih
        simp at ih ⊢
        omega

theorem Split_of_mem (s : Str) (sep : Char) (h : sep ∈ s) :
    1 < (Split s sep).length ∧ ((Split s sep).getD 1 []).length < s.length := by
  induction s with
  | nil => cases h
  | cons c cs ih =>
    by_cases hc : c = sep
    · have hne := Split_ne_nil cs sep
      have hlen := Split_head_length cs sep
      cases hs : Split cs sep with
      | nil => exact absurd hs hne
      | cons p ps =>
        rw [hs] at hlen
        simp [Split, hc, hs] at hlen ⊢
        omega
    · have hmem : sep ∈ cs := by
        rcases List.mem_cons.1 h with h1 | h1
        · exact absurd h1.symm hc
        · exact h1
      obtain ⟨h1, h2⟩ := ih hmem
      cases hs : Split cs sep with
      | nil => exact absurd hs (Split_ne_nil cs sep)
      | cons p ps =>
        rw [hs] at h1 h2
        cases ps with
        | nil => simp at h1
        | cons q qs =>
          simp [Split, hc, hs] at h2 ⊢
          omega

theorem senderEmail_of_not_mem (f : Str) (h : '<' ∉ f) : senderEmail f = f := by
  simp [senderEmail, Split_of_not_mem f '<' h]

theorem senderEmail_ne_of_mem (f : Str) (h : '<' ∈ f) : senderEmail f ≠ f := by
  obtain ⟨h1, h2⟩ := Split_of_mem f '<' h
  intro heq
  have hlen := congrArg List.length heq
  unfold senderEmail at hlen
  simp only [h1, if_true] at hlen
  have := TrimSuffix_length_le ((Split f '<').getD 1 []) ">".toList
  omega

theorem senderEmail_of_display (d a : Str) (hd : '<' ∉ d) (ha : '<' ∉ a) :
    senderEmail (d ++ " <".toList ++ a ++ ">".toList) = a := by
  have hform : d ++ " <".toList ++ a ++ ">".toList = (d ++ [' ']) ++ '<' :: (a ++ ['>']) := by
    simp
  have h1 : '<' ∉ d ++ [' '] := by
    simp only [List.mem_append, List.mem_singleton, not_or]
    exact ⟨hd, by decide⟩
  have h2 : '<' ∉ a ++ ['>'] := by
    simp only [List.mem_append, List.mem_singleton, not_or]
    exact ⟨ha, by decide⟩
  have hs : Split (d ++ " <".toList ++ a ++ ">".toList) '<' = [d ++ [' '], a ++ ['>']] := by
    rw [hform, Split_append_sep _ _ _ h1, Split_of_not_mem _ _ h2]
  unfold senderEmail
  simp only [hs]
  exact TrimSuffix_append a ['>']

/-- With a `<` in the string, the second piece of the split is the text
between the first `<` and the next one, or the end of the string. -/
theorem Split_second_piece (pre mid tail : Str) (hpre : '<' ∉ pre) (hmid : '<' ∉ mid)
    (htail : tail = [] ∨ ∃ rest, tail = '<' :: rest) :
    1 < (Split (pre ++ "<".toList ++ mid ++ tail) '<').length ∧
    (Split (pre ++ "<".toList ++ mid ++ tail) '<').getD 1 [] = mid := by
  have hform : pre ++ "<".toList ++ mid ++ tail = pre ++ '<' :: (mid ++ tail) := by
    simp
  rw [hform, Split_append_sep _ _ _ hpre]
  rcases htail with rfl | ⟨rest, rfl⟩
  · rw [List.append_nil, Split_of_not_mem _ _ hmid]
    exact ⟨Nat.lt_succ_self 1, rfl⟩
  · rw [Split_append_sep _ _ _ hmid]
    refine ⟨?_, rfl⟩
    simp only [List.length_cons]
    omega

theorem TrimSuffix_of_not_suffix (s suffix : Str) (h : ¬ suffix <:+ s) :
    TrimSuffix s suffix = s := by
  unfold TrimSuffix
  have hb : ¬ (suffix.isSuffixOf s = true) := by
    rw [List.isSuffixOf_iff_suffix]
    exact h
  rw [if_neg hb]

theorem senderEmail_of_pieces (pre mid tail : Str) (hpre : '<' ∉ pre) (hmid : '<' ∉ mid)
    (htail : tail = [] ∨ ∃ rest, tail = '<' :: rest) :
    senderEmail (pre ++ "<".toList ++ mid ++ tail) = TrimSuffix mid ">".toList := by
  obtain ⟨h1, h2⟩ := Split_second_piece pre mid tail hpre hmid htail
  unfold senderEmail
  simp only [h1, if_true, h2]

theorem mem_deliverySteps_auth (config : Config) (currentTime : Str) (i u p h : Str)
    (hm : SmtpOp.Auth i u p h ∈ deliverySteps config currentTime) :
    u = senderEmail config.EmailFrom := by
  simp only [deliverySteps, sessionSteps, List.mem_cons, List.mem_append, List.mem_map,
    List.mem_singleton, List.not_mem_nil, or_false, reduceCtorEq, false_or, or_false,
    and_false, exists_false, SmtpOp.Auth.injEq] at hm
  exact hm.2.1

theorem mem_deliverySteps_mail (config : Config) (currentTime : Str) (f : Str)
    (hm : SmtpOp.Mail f ∈ deliverySteps config currentTime) :
    f = senderEmail config.EmailFrom := by
  simp only [deliverySteps, sessionSteps, List.mem_cons, List.mem_append, List.mem_map,
    List.mem_singleton, List.not_mem_nil, or_false, reduceCtorEq, false_or, or_false,
    and_false, exists_false, SmtpOp.Mail.injEq] at hm
  exact hm

/-- C5, as the code has it. For a display name `d` and an address `a` that
contain no `<`, the address extracted from `d ++ " <" ++ a ++ ">"` is exactly
`a`. The extracted address is `emailFrom` verbatim exactly when `emailFrom`
contains no `<`. When `emailFrom` contains a `<`, the extracted address is the
text `mid` between the first `<` and the next `<` (or the end of the string),
without its last character when that is `>`. The extracted address is what
every `Auth` (as user name) and every `Mail` of the handler carries.
"Jane Doe <jane@example.com>" gives "jane@example.com", "jane@example.com"
gives itself, and `x<y<z>` gives `y`. -/
theorem senderEmail_extraction :
    (∀ d a : Str, '<' ∉ d → '<' ∉ a →
      senderEmail (d ++ " <".toList ++ a ++ ">".toList) = a) ∧
    (∀ f : Str, senderEmail f = f ↔ '<' ∉ f) ∧
    (∀ pre mid tail : Str, '<' ∉ pre → '<' ∉ mid →
      (tail = [] ∨ ∃ rest, tail = '<' :: rest) →
      (∀ m, mid = m ++ ">".toList →
        senderEmail (pre ++ "<".toList ++ mid ++ tail) = m) ∧
      (¬ ">".toList <:+ mid → senderEmail (pre ++ "<".toList ++ mid ++ tail) = mid)) ∧
    (∀ (config : Config) (currentTime : Str) (smtp : Session) (w : ResponseWriter),
      (∀ i u p h, SmtpOp.Auth i u p h ∈ (mailDelivered config currentTime smtp w).1 →
        u = senderEmail config.EmailFrom) ∧
      (∀ f, SmtpOp.Mail f ∈ (mailDelivered config currentTime smtp w).1 →
        f = senderEmail config.EmailFrom)) ∧
    senderEmail "Jane Doe <jane@example.com>".toList = "jane@example.com".toList ∧
    senderEmail "jane@example.com".toList = "jane@example.com".toList ∧
    senderEmail "x<y<z>".toList = "y".toList := by
  refine ⟨senderEmail_of_display, fun f => ⟨fun h hm => senderEmail_ne_of_mem f hm h,
    senderEmail_of_not_mem f⟩, ?_, ?_, by decide, by decide, by decide⟩
  · intro pre mid tail hpre hmid htail
    rw [senderEmail_of_pieces pre mid tail hpre hmid htail]
    refine ⟨fun m hm => ?_, fun hns => TrimSuffix_of_not_suffix _ _ hns⟩
    rw [hm]
    exact TrimSuffix_append m ">".toList
  · intro config currentTime smtp w
    refine ⟨fun i u p h hm => ?_, fun f hm => ?_⟩
    · rcases mem_trace config currentTime smtp w _ hm with h1 | h1 | h1
      · exact mem_deliverySteps_auth config currentTime i u p h h1
      · cases h1
      · cases h1
    · rcases mem_trace config currentTime smtp w _ hm with h1 | h1 | h1
      · exact mem_deliverySteps_mail config currentTime f h1
      · cases h1
      · cases h1

/-- C5 at the specification's two examples and at a string with three
brackets, through the general statement. -/
theorem senderEmail_extraction_witness :
    senderEmail ("Jane Doe".toList ++ " <".toList ++ "jane@example.com".toList ++ ">".toList) =
      "jane@example.com".toList ∧
    senderEmail "jane@example.com".toList = "jane@example.com".toList ∧
    senderEmail ("x".toList ++ "<".toList ++ "y".toList ++ "<z>".toList) = "y".toList ∧
    senderEmail ("Jane ".toList ++ "<".toList ++ "jane@example.com>".toList ++ []) =
      "jane@example.com".toList :=
  ⟨senderEmail_extraction.1 "Jane Doe".toList "jane@example.com".toList (by decide) (by decide),
   (senderEmail_extraction.2.1 "jane@example.com".toList).2 (by decide),
   (senderEmail_extraction.2.2.1 "x".toList "y".toList "<z>".toList (by decide) (by decide)
      (Or.inr ⟨"z>".toList, rfl⟩)).2
      (fun hs => absurd (List.isSuffixOf_iff_suffix.2 hs) (by decide)),
   (senderEmail_extraction.2.2.1 "Jane ".toList "jane@example.com>".toList [] (by decide)
      (by decide) (Or.inl rfl)).1 "jane@example.com".toList rfl⟩

/-- C5 as stated fails twice. A display name with a `<` in it: from
`Jane <3 <jane@example.com>` the code extracts `3 ` and not the address. A
string that is not of the form `Display Name <addr>` (the closing bracket is
missing) and is not used verbatim: `Jane <jane@example.com` gives
`jane@example.com`. -/
theorem senderEmail_counterexample :
    senderEmail ("Jane <3".toList ++ " <".toList ++ "jane@example.com".toList ++ ">".toList) =
      "3 ".toList ∧
    senderEmail ("Jane <3".toList ++ " <".toList ++ "jane@example.com".toList ++ ">".toList) ≠
      "jane@example.com".toList ∧
    (¬ ∃ d a : Str, "Jane <jane@example.com".toList = d ++ " <".toList ++ a ++ ">".toList) ∧
    senderEmail "Jane <jane@example.com".toList = "jane@example.com".toList ∧
    senderEmail "Jane <jane@example.com".toList ≠ "Jane <jane@example.com".toList := by
  refine ⟨by decide, by decide, ?_, by decide, by decide⟩
  rintro ⟨d, a, h⟩
  have hlast : ("Jane <jane@example.com".toList).getLast? = some '>' := by
    rw [h]
    exact List.getLast?_concat (d ++ " <".toList ++ a)
  exact absurd hlast (by decide)

/-! ## Message -/

theorem Join_cons_cons (e e2 : Str) (es : List Str) (sep : Str) :
    Join (e :: e2 :: es) sep = e ++ sep ++ Join (e2 :: es) sep := by
  simp [Join, List.intercalate, List.intersperse]

theorem not_mem_Join (c : Char) (es : List Str) (sep : Str) (hsep : c ∉ sep)
    (h : ∀ e ∈ es, c ∉ e) : c ∉ Join es sep := by
  induction es with
  | nil => simp [Join, List.intercalate]
  | cons e es ih =>
    cases es with
    | nil => simpa [Join, List.intercalate] using h e (by simp)
    | cons e2 es =>
      rw [Join_cons_cons]
      simp only [List.mem_append, not_or]
      exact ⟨⟨h e (by simp), hsep⟩, ih (fun x hx => h x (List.mem_cons_of_mem _ hx))⟩

theorem LFAfterCR_nil : LFAfterCR [] := by
  intro i hi
  simp at hi

/-- A line feed at or after the end of `a` in `a ++ "\r\n"` is the final
one, preceded by the carriage return. -/
theorem lf_in_crlf_tail (a : Str) (i : Nat) (hi : (a ++ "\r\n".toList)[i]? = some '\n')
    (hge : a.length ≤ i) : ∃ j, i = j + 1 ∧ (a ++ "\r\n".toList)[j]? = some '\r' := by
  have hcr : "\r\n".toList = ['\r', '\n'] := rfl
  rw [hcr] at hi ⊢
  rw [List.getElem?_append_right hge] at hi
  have h3 : i - a.length = 1 := by
    rcases Nat.lt_or_ge (i - a.length) 2 with h4 | h4
    · rcases Nat.eq_zero_or_pos (i - a.length) with h5 | h5
      · rw [h5] at hi
        exact absurd hi (by decide)
      · omega
    · rw [List.getElem?_eq_none (by simpa using h4)] at hi
      cases hi
  refine ⟨a.length, by omega, ?_⟩
  rw [List.getElem?_append_right (Nat.le_refl _)]
  simp

theorem LFAfterCR_append_line (a b : Str) (ha : LFAfterCR a) (hb : '\n' ∉ b) :
    LFAfterCR (a ++ b ++ "\r\n".toList) := by
  intro i hi
  rcases Nat.lt_or_ge i a.length with h1 | h1
  · rw [List.append_assoc, List.getElem?_append_left h1] at hi
    obtain ⟨j, hj, hj2⟩ := ha i hi
    refine ⟨j, hj, ?_⟩
    rw [List.append_assoc, List.getElem?_append_left (by omega)]
    exact hj2
  · rcases Nat.lt_or_ge i (a ++ b).length with h2 | h2
    · rw [List.getElem?_append_left h2, List.getElem?_append_right h1] at hi
      exact absurd (List.getElem?_mem hi) hb
    · exact lf_in_crlf_tail (a ++ b) i hi h2

theorem headerBlock_LFAfterCR (config : Config) (currentTime : Str)
    (hfrom : '\n' ∉ config.EmailFrom) (hto : ∀ r ∈ config.EmailTo, '\n' ∉ r)
    (hts : '\n' ∉ currentTime) : LFAfterCR (headerBlock config currentTime) := by
  unfold headerBlock
  have h0 := LFAfterCR_nil
  have h1 := LFAfterCR_append_line [] ("From: ".toList ++ config.EmailFrom) h0 (by
    simp only [List.mem_append, not_or]; exact ⟨by decide, hfrom⟩)
  have h2 := LFAfterCR_append_line _ ("To: ".toList ++ Join config.EmailTo ",".toList) h1 (by
    simp only [List.mem_append, not_or]
    exact ⟨by decide, not_mem_Join _ _ _ (by decide) hto⟩)
  have h3 := LFAfterCR_append_line _ ("Subject: Mail Delivered - ".toList ++ currentTime) h2 (by
    simp only [List.mem_append, not_or]; exact ⟨by decide, hts⟩)
  have h4 := LFAfterCR_append_line _ "MIME-Version: 1.0".toList h3 (by decide)
  have h5 := LFAfterCR_append_line _ "Content-Type: text/plain; charset=UTF-8".toList h4
    (by decide)
  have h6 := LFAfterCR_append_line _ [] h5 (by decide)
  simpa only [List.nil_append, List.append_assoc] using h6

theorem message_eq_headerBlock (config : Config) (currentTime : Str) :
    message config currentTime = headerBlock config currentTime ++ body ++ "\r\n".toList := by
  have e1 : "MIME-Version: 1.0\r\n".toList = "MIME-Version: 1.0".toList ++ "\r\n".toList := rfl
  have e2 : "Content-Type: text/plain; charset=UTF-8\r\n".toList =
    "Content-Type: text/plain; charset=UTF-8".toList ++ "\r\n".toList := rfl
  have e3 : "Subject: Mail Delivered - ".toList = "Subject: ".toList ++ "Mail Delivered - ".toList :=
    rfl
  unfold message headerBlock subject
  rw [e1, e2, e3]
  simp only [List.append_assoc, List.nil_append]

/-- C6. The message the handler composes, and the only thing it ever
writes to the data stream, is the concatenation of the `From` line with the
full `EmailFrom` string, the `To` line with the recipients joined by commas,
the `Subject` line with "Mail Delivered - " and the timestamp, the
MIME-Version and Content-Type lines, a blank line and the fixed body, each
followed by CRLF; the body is a constant text. -/
theorem message_composition (config : Config) (currentTime : Str) :
    message config currentTime =
      "From: ".toList ++ config.EmailFrom ++ "\r\n".toList ++
      "To: ".toList ++ ",".toList.intercalate config.EmailTo ++ "\r\n".toList ++
      "Subject: Mail Delivered - ".toList ++ currentTime ++ "\r\n".toList ++
      "MIME-Version: 1.0".toList ++ "\r\n".toList ++
      "Content-Type: text/plain; charset=UTF-8".toList ++ "\r\n".toList ++
      "\r\n".toList ++
      body ++ "\r\n".toList ∧
    body = "You've got mail in your mailbox!\n\nThis notification was sent from your home mailbox system.\n\nBest regards,\nYour Mailbox".toList ∧
    ∀ (smtp : Session) (w : ResponseWriter) (p : Str),
      SmtpOp.Write p ∈ (mailDelivered config currentTime smtp w).1 →
        p = message config currentTime := by
  refine ⟨?_, rfl, ?_⟩
  · rw [message_eq_headerBlock]
    unfold headerBlock Join
    simp only [List.append_assoc, List.nil_append]
  · intro smtp w p hp
    rcases mem_trace config currentTime smtp w _ hp with h | h | h
    · simp only [deliverySteps, sessionSteps, List.mem_cons, List.mem_append, List.mem_map,
        List.mem_singleton, List.not_mem_nil, or_false, reduceCtorEq, false_or, or_false,
        and_false, exists_false, SmtpOp.Write.injEq] at h
      exact h
    · cases h
    · cases h

/-- C6 at `configSample`: the message written in the all-success run, with
the display-name sender in the `From` line. -/
theorem message_composition_witness :
    message configSample timeSample =
      "From: Jane Doe <jane@example.com>\r\nTo: a@example.com,b@example.com\r\nSubject: Mail Delivered - Jan 2, 2006 at 3:04 PM PST\r\nMIME-Version: 1.0\r\nContent-Type: text/plain; charset=UTF-8\r\n\r\nYou've got mail in your mailbox!\n\nThis notification was sent from your home mailbox system.\n\nBest regards,\nYour Mailbox\r\n".toList :=
  ((message_composition configSample timeSample).2.2 sessionOK ResponseWriter.fresh _
    (List.getElem?_mem (show (mailDelivered configSample timeSample sessionOK
      ResponseWriter.fresh).1[7]? = some (SmtpOp.Write _) from rfl))).symm

/-- C7, as the code has it. With no line feed in `EmailFrom`, the recipients
and the timestamp, the message is the header block (the five header lines and
the blank line, each ended by CRLF), the body and a final CRLF; a line feed of
the message is immediately preceded by a carriage return exactly when it lies
outside the body text, whose five line breaks are bare line feeds. -/
theorem message_crlf (config : Config) (currentTime : Str)
    (hfrom : '\n' ∉ config.EmailFrom) (hto : ∀ r ∈ config.EmailTo, '\n' ∉ r)
    (hts : '\n' ∉ currentTime) :
    message config currentTime = headerBlock config currentTime ++ body ++ "\r\n".toList ∧
    LFAfterCR (headerBlock config currentTime) ∧
    "\r\n".toList <:+ message config currentTime ∧
    (∀ i, (message config currentTime)[i]? = some '\n' →
      ((∃ j, i = j + 1 ∧ (message config currentTime)[j]? = some '\r') ↔
        ¬ ((headerBlock config currentTime).length ≤ i ∧
            i < (headerBlock config currentTime).length + body.length))) ∧
    body.count '\n' = 5 ∧ '\r' ∉ body := by
  have hH := headerBlock_LFAfterCR config currentTime hfrom hto hts
  have hm := message_eq_headerBlock config currentTime
  refine ⟨hm, hH, ?_, ?_, by decide, by decide⟩
  · rw [hm]
    exact List.suffix_append _ _
  · intro i hi
    rw [hm] at hi ⊢
    generalize headerBlock config currentTime = H at hH hi ⊢
    constructor
    · rintro ⟨j, hj, hj2⟩ ⟨h1, h2⟩
      subst hj
      rcases Nat.lt_or_ge j H.length with h3 | h3
      · have hi0 : j + 1 = H.length := by omega
        rw [List.getElem?_append_left (by simp; omega),
          List.getElem?_append_right (by omega), hi0, Nat.sub_self] at hi
        have hb0 : body[0]? = some 'Y' := rfl
        rw [hb0] at hi
        exact absurd (Option.some.inj hi) (by decide)
      · rw [List.getElem?_append_left (by simp; omega),
          List.getElem?_append_right h3] at hj2
        exact absurd (List.getElem?_mem hj2) (by decide)
    · intro hout
      rcases Nat.lt_or_ge i H.length with h1 | h1
      · rw [List.append_assoc, List.getElem?_append_left h1] at hi
        obtain ⟨j, hj, hj2⟩ := hH i hi
        refine ⟨j, hj, ?_⟩
        rw [List.append_assoc, List.getElem?_append_left (by omega)]
        exact hj2
      · have h2 : (H ++ body).length ≤ i := by
          rw [List.length_append]
          rcases Nat.lt_or_ge i (H.length + body.length) with h3 | h3
          · exact absurd ⟨h1, h3⟩ hout
          · exact h3
        exact lf_in_crlf_tail (H ++ body) i hi h2

/-- C7 at `configSample`. -/
theorem message_crlf_witness :
    ('\n' ∉ configSample.EmailFrom ∧ (∀ r ∈ configSample.EmailTo, '\n' ∉ r) ∧
      '\n' ∉ timeSample) ∧
    LFAfterCR (headerBlock configSample timeSample) ∧
    "\r\n".toList <:+ message configSample timeSample :=
  have h := message_crlf configSample timeSample (by decide) (by decide) (by decide)
  ⟨⟨by decide, by decide, by decide⟩, h.2.1, h.2.2.1⟩

/-- C7 as stated fails: with no line break in the sender, the recipients or
the timestamp, the line feed at position 216 of the message (the end of the
first body line) follows `!`, not a carriage return. -/
theorem message_crlf_counterexample :
    ('\n' ∉ configSample.EmailFrom ∧ '\r' ∉ configSample.EmailFrom) ∧
    (∀ r ∈ configSample.EmailTo, '\n' ∉ r ∧ '\r' ∉ r) ∧
    ('\n' ∉ timeSample ∧ '\r' ∉ timeSample) ∧
    (message configSample timeSample)[216]? = some '\n' ∧
    (message configSample timeSample)[215]? = some '!' ∧
    ¬ LFAfterCR (message configSample timeSample) := by
  have h216 : (message configSample timeSample)[216]? = some '\n' := rfl
  have h215 : (message configSample timeSample)[215]? = some '!' := rfl
  refine ⟨by decide, by decide, by decide, h216, h215, ?_⟩
  intro h
  obtain ⟨j, hj, hj2⟩ := h 216 h216
  have hj3 : j = 215 := by omega
  subst hj3
  rw [h215] at hj2
  exact absurd (Option.some.inj hj2) (by decide)

end YouveGotMail
